import Mathlib

/-!
Verification of the backup/restore orchestration core of the PostgreSQL
operator (`src/backups.py`), as a shallow embedding in Lean.

Character sequences are modelled as `List Char`; parsed JSON output of the
backup engine is modelled as the structures the code reads out of it; calls
to external collaborators (cluster manager, object store, subprocess
execution) are modelled as oracle inputs recorded in an event trace.
-/

namespace Backups

/-! ## Timestamps and the two backup-id formats

`_list_backups` and `_on_restore_action` convert between the engine's
internal label timestamp format (`PGBACKREST_BACKUP_ID_FORMAT`, i.e.
`%Y%m%d-%H%M%S`, visible in `src/backups.py` lines 551 and 558) and the
public backup-id format (`BACKUP_ID_FORMAT`).

Modelled from the spec: the constant `BACKUP_ID_FORMAT` lives in
`constants.py`, which is not part of the provided sources; the spec calls it
a "human timestamp format, distinct from the engine's internal label
format", and the code at line 489 uses the human timestamp format
`%Y-%m-%dT%H:%M:%SZ`, which is what we use here.  `strptime`/`strftime`
with these fixed-width, zero-padded directives are modelled as
fixed-position digit reading/printing, with `strptime`'s range validation
(Python `datetime` accepts years 1..9999 and checks days against the
month/leap-year calendar). -/

structure TS where
  year : Nat
  month : Nat
  day : Nat
  hour : Nat
  minute : Nat
  second : Nat
deriving DecidableEq, Repr

def isLeapYear (y : Nat) : Bool :=
  (y % 4 == 0 && !(y % 100 == 0)) || y % 400 == 0

def daysInMonth (y m : Nat) : Nat :=
  if m = 2 then (if isLeapYear y then 29 else 28)
  else if m = 4 ∨ m = 6 ∨ m = 9 ∨ m = 11 then 30
  else 31

def validTS (t : TS) : Bool :=
  decide (1 ≤ t.year) && decide (t.year ≤ 9999) &&
  decide (1 ≤ t.month) && decide (t.month ≤ 12) &&
  decide (1 ≤ t.day) && decide (t.day ≤ daysInMonth t.year t.month) &&
  decide (t.hour ≤ 23) && decide (t.minute ≤ 59) && decide (t.second ≤ 59)

def digitChar (n : Nat) : Char := Char.ofNat (48 + n)

def digitVal (c : Char) : Nat := c.toNat - 48

def isDigit (c : Char) : Bool := 48 ≤ c.toNat && c.toNat ≤ 57

def read2 (a b : Char) : Nat := digitVal a * 10 + digitVal b

def read4 (a b c d : Char) : Nat :=
  digitVal a * 1000 + digitVal b * 100 + digitVal c * 10 + digitVal d

/-- `strftime` with `PGBACKREST_BACKUP_ID_FORMAT` (`%Y%m%d-%H%M%S`). -/
def printPg (t : TS) : List Char :=
  [digitChar (t.year / 1000 % 10), digitChar (t.year / 100 % 10),
   digitChar (t.year / 10 % 10), digitChar (t.year % 10),
   digitChar (t.month / 10 % 10), digitChar (t.month % 10),
   digitChar (t.day / 10 % 10), digitChar (t.day % 10),
   '-',
   digitChar (t.hour / 10 % 10), digitChar (t.hour % 10),
   digitChar (t.minute / 10 % 10), digitChar (t.minute % 10),
   digitChar (t.second / 10 % 10), digitChar (t.second % 10)]

/-- `strftime` with `BACKUP_ID_FORMAT` (`%Y-%m-%dT%H:%M:%SZ`). -/
def printPublic (t : TS) : List Char :=
  [digitChar (t.year / 1000 % 10), digitChar (t.year / 100 % 10),
   digitChar (t.year / 10 % 10), digitChar (t.year % 10),
   '-',
   digitChar (t.month / 10 % 10), digitChar (t.month % 10),
   '-',
   digitChar (t.day / 10 % 10), digitChar (t.day % 10),
   'T',
   digitChar (t.hour / 10 % 10), digitChar (t.hour % 10),
   ':',
   digitChar (t.minute / 10 % 10), digitChar (t.minute % 10),
   ':',
   digitChar (t.second / 10 % 10), digitChar (t.second % 10),
   'Z']

/-- `strptime` with `PGBACKREST_BACKUP_ID_FORMAT`. -/
def parsePg : List Char → Option TS
  | [y1, y2, y3, y4, mo1, mo2, d1, d2, '-', h1, h2, mi1, mi2, s1, s2] =>
    if isDigit y1 && isDigit y2 && isDigit y3 && isDigit y4 &&
       isDigit mo1 && isDigit mo2 && isDigit d1 && isDigit d2 &&
       isDigit h1 && isDigit h2 && isDigit mi1 && isDigit mi2 &&
       isDigit s1 && isDigit s2 then
      if validTS ⟨read4 y1 y2 y3 y4, read2 mo1 mo2, read2 d1 d2,
                  read2 h1 h2, read2 mi1 mi2, read2 s1 s2⟩ then
        some ⟨read4 y1 y2 y3 y4, read2 mo1 mo2, read2 d1 d2,
              read2 h1 h2, read2 mi1 mi2, read2 s1 s2⟩
      else none
    else none
  | _ => none

/-- `strptime` with `BACKUP_ID_FORMAT`. -/
def parsePublic : List Char → Option TS
  | [y1, y2, y3, y4, '-', mo1, mo2, '-', d1, d2, 'T',
     h1, h2, ':', mi1, mi2, ':', s1, s2, 'Z'] =>
    if isDigit y1 && isDigit y2 && isDigit y3 && isDigit y4 &&
       isDigit mo1 && isDigit mo2 && isDigit d1 && isDigit d2 &&
       isDigit h1 && isDigit h2 && isDigit mi1 && isDigit mi2 &&
       isDigit s1 && isDigit s2 then
      if validTS ⟨read4 y1 y2 y3 y4, read2 mo1 mo2, read2 d1 d2,
                  read2 h1 h2, read2 mi1 mi2, read2 s1 s2⟩ then
        some ⟨read4 y1 y2 y3 y4, read2 mo1 mo2, read2 d1 d2,
              read2 h1 h2, read2 mi1 mi2, read2 s1 s2⟩
      else none
    else none
  | _ => none

/-! ## The backup catalog listing (`_list_backups`, lines 307-341)

The engine's `info --output=json` output is modelled as the parsed value the
code reads out of it: a list of repositories, each with a `name` and a
`backup` array of `{label, error}` entries.  The `error` field is modelled
as a character sequence whose emptiness is Python falsiness. -/

structure BackupEntry where
  label : List Char
  error : List Char
deriving DecidableEq, Repr

structure RepoInfo where
  name : List Char
  backup : List BackupEntry
deriving DecidableEq, Repr

/-- Label-to-id conversion done by the listing (line 333): strip the trailing
type character (`F`/`D`/`I`) and convert the timestamp from
`PGBACKREST_BACKUP_ID_FORMAT` to `BACKUP_ID_FORMAT`.  `none` models the
`ValueError` that `strptime` raises on a malformed label. -/
def labelToId (label : List Char) : Option (List Char) :=
  (parsePg label.dropLast).map printPublic

/-- Backup-id-to-label conversion done by `_on_restore_action` (line 671):
`strftime(strptime(backup_id, BACKUP_ID_FORMAT), PGBACKREST_BACKUP_ID_FORMAT)`
with the character `F` appended unconditionally. -/
def idToLabel (id : List Char) : Option (List Char) :=
  (parsePublic id).map (fun t => printPg t ++ ['F'])

def convEntry (b : BackupEntry) : Option (List Char) :=
  labelToId b.label

/-- The `(backup-id, stanza-name)` generator inside the `OrderedDict`
constructor of `_list_backups` (lines 331-341), applied to an already
filtered entry list. -/
def convList (name : List Char) : List BackupEntry → Option (List (List Char × List Char))
  | [] => some []
  | b :: bs =>
    match convEntry b, convList name bs with
    | some id, some rest => some ((id, name) :: rest)
    | _, _ => none

/-- The entry sequence produced by `_list_backups` for the first repository
(`next(iter(json.loads(output)), None)`), before `OrderedDict` key
deduplication. -/
def listEntries (repos : List RepoInfo) (show_failed : Bool) :
    Option (List (List Char × List Char)) :=
  match repos.head? with
  | none => some []
  | some repo =>
    convList repo.name (repo.backup.filter (fun b => show_failed || b.error.isEmpty))

def headBackups (repos : List RepoInfo) : List BackupEntry :=
  match repos.head? with
  | none => []
  | some r => r.backup

/-- Python `OrderedDict` insertion: an existing key keeps its position and
gets the new value, a new key is appended. -/
def dictInsert (m : List (List Char × List Char)) (k v : List Char) :
    List (List Char × List Char) :=
  if (m.map Prod.fst).contains k then
    m.map (fun kv => if kv.1 = k then (k, v) else kv)
  else m ++ [(k, v)]

def odictOfList (l : List (List Char × List Char)) : List (List Char × List Char) :=
  l.foldl (fun m kv => dictInsert m kv.1 kv.2) []

/-- `_list_backups`: `none` models an uncaught exception (a `strptime`
`ValueError` on a malformed label), `Except.error` models the
`ListBackupsError` raised when the engine's info command exits non-zero. -/
def listBackupsResult (rc : Int) (repos : List RepoInfo) (show_failed : Bool) :
    Option (Except Unit (List (List Char × List Char))) :=
  if rc ≠ 0 then some (Except.error ())
  else
    match listEntries repos show_failed with
    | some l => some (Except.ok (odictOfList l))
    | none => none

/-! ## S3 parameter retrieval (`_retrieve_s3_parameters`, lines 787-823)

The result of `get_s3_connection_info()` is modelled as an association list
from keys to values; a value is either a string or Python `None` (which
`setdefault("region")` introduces). -/

inductive SVal where
  | noneVal : SVal
  | strVal : List Char → SVal
deriving DecidableEq, Repr

/-- Python dict lookup (`d[k]` / `d.get(k)`). -/
def dGet : List (List Char × SVal) → List Char → Option SVal
  | [], _ => none
  | kv :: d, k => if kv.1 = k then some kv.2 else dGet d k

/-- Python `k in d`. -/
def dHas (d : List (List Char × SVal)) (k : List Char) : Bool :=
  (dGet d k).isSome

/-- Python dict assignment `d[k] = v`. -/
def dSet : List (List Char × SVal) → List Char → SVal → List (List Char × SVal)
  | [], k, v => [(k, v)]
  | kv :: d, k, v => if kv.1 = k then (k, v) :: d else kv :: dSet d k v

/-- Python `d.setdefault(k, v)`. -/
def dSetDefault (d : List (List Char × SVal)) (k : List Char) (v : SVal) :
    List (List Char × SVal) :=
  if dHas d k then d else d ++ [(k, v)]

/-- Python whitespace class used by `str.strip()` (ASCII portion). -/
def isSpace (c : Char) : Bool :=
  c == ' ' || c == '\t' || c == '\n' || c == '\r' || c == '\x0b' || c == '\x0c'

/-- Python `s.strip()`. -/
def pyStrip (l : List Char) : List Char :=
  (l.dropWhile isSpace).rdropWhile isSpace

/-- Python `s.rstrip("/")`. -/
def rstripSlash (l : List Char) : List Char :=
  l.rdropWhile (fun c => c == '/')

/-- Python `s.strip("/")`. -/
def stripSlash (l : List Char) : List Char :=
  (l.dropWhile (fun c => c == '/')).rdropWhile (fun c => c == '/')

/-- The whitespace-stripping loop over all dict values (lines 811-813). -/
def trimVals (d : List (List Char × SVal)) : List (List Char × SVal) :=
  d.map (fun kv => (kv.1,
    match kv.2 with
    | SVal.strVal s => SVal.strVal (pyStrip s)
    | v => v))

def dGetStr (d : List (List Char × SVal)) (k : List Char) (dflt : List Char) :
    List Char :=
  match dGet d k with
  | some (SVal.strVal s) => s
  | _ => dflt

def requiredS3Keys : List (List Char) :=
  ["bucket".data, "access-key".data, "secret-key".data]

/-- The four `setdefault` calls of `_retrieve_s3_parameters` (lines 804-808). -/
def s3Defaults (d : List (List Char × SVal)) : List (List Char × SVal) :=
  dSetDefault (dSetDefault (dSetDefault (dSetDefault d
    ("endpoint".data) (SVal.strVal "https://s3.amazonaws.com".data))
    ("region".data) SVal.noneVal)
    ("path".data) (SVal.strVal []))
    ("s3-uri-style".data) (SVal.strVal "host".data)

/-- Line 817: `s3_parameters["endpoint"] = s3_parameters["endpoint"].rstrip("/")`. -/
def s3Step6 (d5 : List (List Char × SVal)) : List (List Char × SVal) :=
  dSet d5 ("endpoint".data)
    (SVal.strVal (rstripSlash (dGetStr d5 ("endpoint".data) [])))

/-- Lines 818-820: `s3_parameters["path"] = f-string slash-normalized path`. -/
def s3Step7 (d6 : List (List Char × SVal)) : List (List Char × SVal) :=
  dSet d6 ("path".data)
    (SVal.strVal ('/' :: stripSlash (dGetStr d6 ("path".data) [])))

/-- Line 821: `s3_parameters["bucket"] = s3_parameters["bucket"].strip("/")`. -/
def s3Step8 (d7 : List (List Char × SVal)) : List (List Char × SVal) :=
  dSet d7 ("bucket".data)
    (SVal.strVal (stripSlash (dGetStr d7 ("bucket".data) [])))

/-- `_retrieve_s3_parameters` (lines 787-823). -/
def retrieveS3Parameters (d : List (List Char × SVal)) :
    List (List Char × SVal) × List (List Char) :=
  if requiredS3Keys.filter (fun k => !(dHas d k)) ≠ [] then
    ([], requiredS3Keys.filter (fun k => !(dHas d k)))
  else
    (s3Step8 (s3Step7 (s3Step6 (trimVals (s3Defaults d)))), [])

/-! ## Object key construction (`_upload_content_to_s3`, line 878) -/

/-- Python `os.path.join(a, b)` for two POSIX path components. -/
def osJoin (a b : List Char) : List Char :=
  if b.head? = some '/' then b
  else if a = [] then b
  else if a.getLast? = some '/' then a ++ b
  else a ++ '/' :: b

/-- Python `s.lstrip("/")`. -/
def lstripSlash (l : List Char) : List Char :=
  l.dropWhile (fun c => c == '/')

/-- The object key computed inside `_upload_content_to_s3` (line 878):
`os.path.join(s3_parameters["path"], s3_path).lstrip("/")`. -/
def uploadKey (paramsPath s3_path : List Char) : List Char :=
  lstripSlash (osJoin paramsPath s3_path)

/-- The shape of the normalized S3 path produced by
`_retrieve_s3_parameters` (line 818-820). -/
def normPath (q : List Char) : List Char :=
  '/' :: stripSlash q

/-! ## Validation messages and backup eligibility
(`_are_backup_settings_ok` lines 84-96, `_can_unit_perform_backup`
lines 98-124) -/

/-- The distinct failure messages produced by the validation and workflow
code, one constructor per message string. -/
inductive Msg where
  | missingRelation
  | missingS3Params (missing : List (List Char))
  | unitBlocked
  | primaryCannotBackup
  | tlsNotEnabled
  | notRunning
  | stanzaNotInitialised
  | failedUploadMetadata
  | failedBackup (stderr : List Char)
  | failedRetrieveBackupId
  | errorUploadingLogs
  | invalidBackupId (id : List Char)
  | missingBackupId
  | clusterOrUnitBlocked
  | tooManyUnits
  | notLeaderYet
  | failedStopDb
  | failedEmptyData
  | failedRemoveCluster (stderr : List Char)
deriving DecidableEq, Repr

/-- `_are_backup_settings_ok`: `none` means the settings are OK, `some m`
is the reported failure. -/
def areBackupSettingsOk (relPresent : Bool)
    (s3Info : List (List Char × SVal)) : Option Msg :=
  if !relPresent then some Msg.missingRelation
  else if (retrieveS3Parameters s3Info).2 ≠ [] then
    some (Msg.missingS3Params (retrieveS3Parameters s3Info).2)
  else none

/-- The role/state snapshot `_can_unit_perform_backup` reads from its
collaborators. -/
structure BackupPrecondEnv where
  isBlocked : Bool
  tlsEnabled : Bool
  isPrimary : Bool
  plannedUnits : Nat
  memberStarted : Bool
  stanzaSet : Bool
  s3RelationPresent : Bool
  s3Info : List (List Char × SVal)

/-- `_can_unit_perform_backup` (lines 98-124). -/
def canUnitPerformBackup (e : BackupPrecondEnv) : Option Msg :=
  if e.isBlocked then some Msg.unitBlocked
  else if e.isPrimary && decide (1 < e.plannedUnits) && e.tlsEnabled then
    some Msg.primaryCannotBackup
  else if !e.isPrimary && !e.tlsEnabled then some Msg.tlsNotEnabled
  else if !e.memberStarted then some Msg.notRunning
  else if !e.stanzaSet then some Msg.stanzaNotInitialised
  else areBackupSettingsOk e.s3RelationPresent e.s3Info

/-- The denial conditions in the order the claim states them. -/
def backupDenialChecks (e : BackupPrecondEnv) : List (Bool × Msg) :=
  [(e.isBlocked, Msg.unitBlocked),
   (e.isPrimary && decide (1 < e.plannedUnits) && e.tlsEnabled,
     Msg.primaryCannotBackup),
   (!e.isPrimary && !e.tlsEnabled, Msg.tlsNotEnabled),
   (!e.memberStarted, Msg.notRunning),
   (!e.stanzaSet, Msg.stanzaNotInitialised)]

/-- Definition following the claim wording: report the first failing
precondition, else let the S3-settings check decide. -/
def canUnitPerformBackupSpec (e : BackupPrecondEnv) : Option Msg :=
  match (backupDenialChecks e).find? (fun c => c.1) with
  | some c => some c.2
  | none => areBackupSettingsOk e.s3RelationPresent e.s3Info

/-! ## Stanza lifecycle (`_initialise_stanza` lines 343-390,
`check_stanza` lines 392-429)

The unit status, the shared `app_peer_data` keys and the calls to
collaborators (config update, Patroni reload, engine sub-commands, the
retry delays, the TLS service restart) are modelled as explicit state plus
an event trace.  The stderr text of failed attempts only feeds log/exception
messages and is omitted. -/

inductive BlockedMsg where
  | anotherClusterRepository
  | failedAccessCreateBucket
  | failedInitStanza
  | otherBlocked (s : List Char)
deriving DecidableEq, Repr

inductive Status where
  | active
  | maintenance (m : List Char)
  | blocked (m : BlockedMsg)
deriving DecidableEq, Repr

def Status.isBlocked : Status → Bool
  | Status.blocked _ => true
  | _ => false

/-- Membership of the unit's blocked message in the three S3/stanza error
messages (`S3_BLOCK_MESSAGES`, also inlined at lines 355-359). -/
def s3BlockStatus : Status → Bool
  | Status.blocked BlockedMsg.anotherClusterRepository => true
  | Status.blocked BlockedMsg.failedAccessCreateBucket => true
  | Status.blocked BlockedMsg.failedInitStanza => true
  | _ => false

structure AppPeerData where
  stanza : Option (List Char)
  initPgbackrest : Bool
deriving DecidableEq, Repr

structure StState where
  peer : AppPeerData
  status : Status
deriving DecidableEq, Repr

inductive SEv where
  | updateConfig
  | reloadPatroni
  | execStanzaCreate
  | execCheck
  | sleep (seconds : Nat)
  | startStopService
  | recordStanza
deriving DecidableEq, Repr

/-- The outcome of one check attempt: whether the Patroni member reported
started (triggering a configuration reload) and the check sub-command's
exit code. -/
structure Attempt where
  memberStarted : Bool
  rc : Int
deriving DecidableEq, Repr

def attemptEvents (a : Attempt) : List SEv :=
  (if a.memberStarted then [SEv.reloadPatroni] else []) ++ [SEv.execCheck]

/-- The `tenacity.Retrying(stop=stop_after_attempt(5), wait=wait_fixed(3))`
loop of `check_stanza` (lines 404-417): run attempts in order, stop at the
first success, wait 3 seconds after each failed attempt except the last,
give up (RetryError) when the fuel is exhausted. -/
def retryCheck (attempts : Nat → Attempt) : Nat → Nat → Bool × List SEv
  | _, 0 => (false, [])
  | i, fuel + 1 =>
    let a := attempts i
    if a.rc = 0 then (true, attemptEvents a)
    else if fuel = 0 then (false, attemptEvents a)
    else
      let rest := retryCheck attempts (i + 1) fuel
      (rest.1, attemptEvents a ++ SEv.sleep 3 :: rest.2)

/-- `check_stanza` (lines 392-429).  The transient
`MaintenanceStatus("checking stanza")` is always overwritten by the final
status (Active on success, Blocked on exhausted retries) and is not kept in
the resulting state. -/
def checkStanza (isLeader : Bool) (attempts : Nat → Attempt) (st : StState) :
    StState × List SEv :=
  if !isLeader || !st.peer.initPgbackrest then (st, [])
  else
    let res := retryCheck attempts 0 5
    if res.1 then
      ({ peer := { stanza := st.peer.stanza, initPgbackrest := false },
         status := Status.active },
        SEv.updateConfig :: res.2)
    else
      ({ peer := { stanza := some [], initPgbackrest := false },
         status := Status.blocked BlockedMsg.failedInitStanza },
        (SEv.updateConfig :: res.2) ++ [SEv.updateConfig])

def sleepsOf (tr : List SEv) : List Nat :=
  tr.filterMap (fun e =>
    match e with
    | SEv.sleep n => some n
    | _ => none)

/-- The collaborator inputs of `_initialise_stanza`: leadership, the exit
code of the `stanza-create` sub-command, and the derived stanza name. -/
structure InitEnv where
  isLeader : Bool
  rc : Int
  stanzaName : List Char
deriving Repr

inductive InitResult where
  | completed
  | timedOut
deriving DecidableEq, Repr

/-- `_initialise_stanza` (lines 343-390).  `InitResult.timedOut` models the
raised `TimeoutError` on exit code 49.  The transient
`MaintenanceStatus("initialising stanza")` remains as the final status only
on the timeout and success paths, exactly as in the code, where no further
status is assigned. -/
def initialiseStanza (env : InitEnv) (st : StState) :
    InitResult × StState × List SEv :=
  if !env.isLeader then (InitResult.completed, st, [])
  else if st.status.isBlocked && !(s3BlockStatus st.status) then
    (InitResult.completed, st, [])
  else
    let st1 : StState :=
      { st with status := Status.maintenance "initialising stanza".data }
    if env.rc = 49 then (InitResult.timedOut, st1, [SEv.execStanzaCreate])
    else if env.rc ≠ 0 then
      (InitResult.completed,
        { st1 with status := Status.blocked BlockedMsg.failedInitStanza },
        [SEv.execStanzaCreate])
    else
      (InitResult.completed,
        { st1 with peer := { stanza := some env.stanzaName,
                             initPgbackrest := true } },
        [SEv.execStanzaCreate, SEv.startStopService, SEv.recordStanza])

/-! ## Backup run (`_run_backup`, lines 530-608) -/

inductive ActionOutcome where
  | success
  | failed (m : Msg)
  | crashed
deriving DecidableEq, Repr

inductive BEv where
  | execBackup (noBackupStandby : Bool)
  | uploadLog (key : List Char)
deriving DecidableEq, Repr

/-- The engine's "new backup label" pattern `[0-9]{8}[-][0-9]{6}[F]`
(line 551). -/
def labelPattern : List Char → Bool
  | [a, b, c, d, e, f, g, h, '-', i, j, k, l, m, 'F'] =>
    isDigit a && isDigit b && isDigit c && isDigit d &&
    isDigit e && isDigit f && isDigit g && isDigit h &&
    isDigit i && isDigit j && isDigit k && isDigit l && isDigit m
  | _ => false

/-- One line of the multiline regex match `(new backup label = )(label)$`:
the line must end with the 19-character literal followed by a 15-character
label, 34 characters in all. -/
def matchLine (l : List Char) : Option (List Char) :=
  if 34 ≤ l.length then
    let tl := l.drop (l.length - 34)
    if (tl.take 19 == "new backup label = ".data) && labelPattern (tl.drop 19)
    then some (tl.drop 19)
    else none
  else none

/-- `re.findall(..., stdout, re.MULTILINE)` and taking the first match's
label group (lines 550-554), over stdout split into lines. -/
def firstLabel (stdoutLines : List (List Char)) : Option (List Char) :=
  stdoutLines.findSome? matchLine

/-- The log object path passed to `_upload_content_to_s3`
(lines 569-572 and 597-600). -/
def backupLogKey (s3Path stanzaName backup_id : List Char) : List Char :=
  osJoin s3Path ("backup/".data ++ stanzaName ++ "/".data ++ backup_id ++
    "/backup.log".data)

structure RunBackupEnv where
  isPrimary : Bool
  rc : Int
  stdoutLines : List (List Char)
  stderr : List Char
  listRc : Int
  listRepos : List RepoInfo
  uploadLogOk : Bool
  now : TS
  s3Path : List Char
  stanzaName : List Char
deriving Repr

/-- `_run_backup` (lines 530-608).  The second engine invocation (the
catalog re-listing of the success path) is given by `listRc`/`listRepos`;
`now` feeds the fallback label synthesized with
`strftime("%Y%m%d-%H%M%SF")` (line 558); `crashed` models the uncaught
`IndexError` of `list(...)[-1]` on an empty catalog. -/
def runBackup (env : RunBackupEnv) : ActionOutcome × List BEv :=
  let cmdEv := BEv.execBackup env.isPrimary
  if env.rc ≠ 0 then
    let backup_id := (firstLabel env.stdoutLines).getD (printPg env.now ++ ['F'])
    (ActionOutcome.failed (Msg.failedBackup env.stderr),
      [cmdEv, BEv.uploadLog (backupLogKey env.s3Path env.stanzaName backup_id)])
  else
    match listBackupsResult env.listRc env.listRepos true with
    | none => (ActionOutcome.crashed, [cmdEv])
    | some (Except.error _) =>
      (ActionOutcome.failed Msg.failedRetrieveBackupId, [cmdEv])
    | some (Except.ok cat) =>
      match cat.getLast? with
      | none => (ActionOutcome.crashed, [cmdEv])
      | some kv =>
        if env.uploadLogOk then
          (ActionOutcome.success,
            [cmdEv, BEv.uploadLog (backupLogKey env.s3Path env.stanzaName kv.1)])
        else
          (ActionOutcome.failed Msg.errorUploadingLogs,
            [cmdEv, BEv.uploadLog (backupLogKey env.s3Path env.stanzaName kv.1)])

/-! ## Restore workflow (`_pre_restore_checks` lines 702-746,
`_on_restore_action` lines 625-700) -/

inductive REv where
  | statusMaintenance
  | stopPatroni
  | emptyDataFiles
  | setDirective (label stanza : List Char)
  | updateConfig
  | startPatroni
  | removeCluster
  | restartDatabase
deriving DecidableEq, Repr

/-- `is_blocked and status.message != ANOTHER_CLUSTER_REPOSITORY...`
(lines 721-724). -/
def blockedNotForeign : Status → Bool
  | Status.blocked BlockedMsg.anotherClusterRepository => false
  | Status.blocked _ => true
  | _ => false

structure RestoreEnv where
  s3RelationPresent : Bool
  s3Info : List (List Char × SVal)
  backupIdParam : Option (List Char)
  status : Status
  plannedUnits : Nat
  isLeader : Bool
  listRc : Int
  listRepos : List RepoInfo
  stopOk : Bool
  emptyOk : Bool
  removeRc : Int
  removeStderr : List Char
deriving Repr

/-- `_pre_restore_checks` (lines 702-746).  `backup-id` missing or empty is
Python-falsy (line 714). -/
def preRestoreChecks (env : RestoreEnv) : Option Msg :=
  match areBackupSettingsOk env.s3RelationPresent env.s3Info with
  | some m => some m
  | none =>
    if env.backupIdParam.getD [] = [] then some Msg.missingBackupId
    else if blockedNotForeign env.status then some Msg.clusterOrUnitBlocked
    else if 1 < env.plannedUnits then some Msg.tooManyUnits
    else if !env.isLeader then some Msg.notLeaderYet
    else none

/-- `_on_restore_action` (lines 625-700).  `crashed` models uncaught
exceptions (a `strptime` `ValueError` on a malformed id or label); the
directive written into `app_peer_data` (line 671) appears as a
`setDirective` event carrying the reconstructed label and the source stanza;
`restartDatabase` is the best-effort `_restart_database()` recovery of the
failed-wipe path. -/
def restoreAction (env : RestoreEnv) : ActionOutcome × List REv :=
  match preRestoreChecks env with
  | some m => (ActionOutcome.failed m, [])
  | none =>
    let backup_id := env.backupIdParam.getD []
    match listBackupsResult env.listRc env.listRepos false with
    | none => (ActionOutcome.crashed, [])
    | some (Except.error _) =>
      (ActionOutcome.failed Msg.failedRetrieveBackupId, [])
    | some (Except.ok backups) =>
      if !((backups.map Prod.fst).contains backup_id) then
        (ActionOutcome.failed (Msg.invalidBackupId backup_id), [])
      else if !env.stopOk then
        (ActionOutcome.failed Msg.failedStopDb,
          [REv.statusMaintenance, REv.stopPatroni])
      else if !env.emptyOk then
        (ActionOutcome.failed Msg.failedEmptyData,
          [REv.statusMaintenance, REv.stopPatroni, REv.emptyDataFiles,
            REv.restartDatabase])
      else
        match parsePublic backup_id with
        | none => (ActionOutcome.crashed,
            [REv.statusMaintenance, REv.stopPatroni, REv.emptyDataFiles])
        | some t =>
          let tr := [REv.statusMaintenance, REv.stopPatroni, REv.emptyDataFiles,
            REv.setDirective (printPg t ++ ['F'])
              (((backups.find? (fun kv => kv.1 == backup_id)).map Prod.snd).getD []),
            REv.updateConfig, REv.startPatroni, REv.removeCluster]
          if env.removeRc ≠ 0 then
            (ActionOutcome.failed (Msg.failedRemoveCluster env.removeStderr), tr)
          else (ActionOutcome.success, tr)

theorem isDigit_digitChar_mod (n : Nat) : isDigit (digitChar (n % 10)) = true := by
  have h : n % 10 < 10 := Nat.mod_lt _ (by omega)
  revert h
  generalize n % 10 = d
  revert d
  decide

theorem digitVal_digitChar_mod (n : Nat) : digitVal (digitChar (n % 10)) = n % 10 := by
  have h : n % 10 < 10 := Nat.mod_lt _ (by omega)
  revert h
  generalize n % 10 = d
  revert d
  decide

theorem read2_digits (n : Nat) (h : n ≤ 99) :
    read2 (digitChar (n / 10 % 10)) (digitChar (n % 10)) = n := by
  unfold read2
  rw [digitVal_digitChar_mod, digitVal_digitChar_mod]
  omega

theorem read4_digits (n : Nat) (h : n ≤ 9999) :
    read4 (digitChar (n / 1000 % 10)) (digitChar (n / 100 % 10))
      (digitChar (n / 10 % 10)) (digitChar (n % 10)) = n := by
  unfold read4
  rw [digitVal_digitChar_mod, digitVal_digitChar_mod, digitVal_digitChar_mod,
    digitVal_digitChar_mod]
  omega

theorem validTS_bounds (t : TS) (h : validTS t = true) :
    t.year ≤ 9999 ∧ t.month ≤ 99 ∧ t.day ≤ 99 ∧ t.hour ≤ 99 ∧
    t.minute ≤ 99 ∧ t.second ≤ 99 := by
  unfold validTS at h
  simp only [Bool.and_eq_true, decide_eq_true_eq] at h
  have hd : daysInMonth t.year t.month ≤ 31 := by
    unfold daysInMonth
    split
    · split <;> omega
    · split <;> omega
  omega

theorem parsePg_printPg (t : TS) (h : validTS t = true) :
    parsePg (printPg t) = some t := by
  obtain ⟨h1, h2, h3, h4, h5, h6⟩ := validTS_bounds t h
  unfold printPg
  simp only [parsePg, isDigit_digitChar_mod, Bool.and_self, if_true]
  rw [read4_digits _ h1, read2_digits _ h2, read2_digits _ h3,
    read2_digits _ h4, read2_digits _ h5, read2_digits _ h6]
  have ht : (⟨t.year, t.month, t.day, t.hour, t.minute, t.second⟩ : TS) = t := rfl
  rw [ht, h]
  simp

theorem parsePublic_printPublic (t : TS) (h : validTS t = true) :
    parsePublic (printPublic t) = some t := by
  obtain ⟨h1, h2, h3, h4, h5, h6⟩ := validTS_bounds t h
  unfold printPublic
  simp only [parsePublic, isDigit_digitChar_mod, Bool.and_self, if_true]
  rw [read4_digits _ h1, read2_digits _ h2, read2_digits _ h3,
    read2_digits _ h4, read2_digits _ h5, read2_digits _ h6]
  have ht : (⟨t.year, t.month, t.day, t.hour, t.minute, t.second⟩ : TS) = t := rfl
  rw [ht, h]
  simp

theorem validTS_of_parsePg (l : List Char) (t : TS) (h : parsePg l = some t) :
    validTS t = true := by
  unfold parsePg at h
  split at h
  · split at h
    · split at h
      · injection h with h
        rw [← h]
        assumption
      · cases h
    · cases h
  · cases h

theorem validTS_of_parsePublic (l : List Char) (t : TS) (h : parsePublic l = some t) :
    validTS t = true := by
  unfold parsePublic at h
  split at h
  · split at h
    · split at h
      · injection h with h
        rw [← h]
        assumption
      · cases h
    · cases h
  · cases h

theorem convList_mem (name : List Char) (bs : List BackupEntry)
    (entries : List (List Char × List Char)) (id st : List Char)
    (h : convList name bs = some entries) (hm : (id, st) ∈ entries) :
    ∃ b, b ∈ bs ∧ convEntry b = some id ∧ st = name := by
  induction bs generalizing entries with
  | nil =>
    unfold convList at h
    injection h with h
    subst h
    cases hm
  | cons b bs ih =>
    unfold convList at h
    cases hcb : convEntry b with
    | none => rw [hcb] at h; cases h
    | some id0 =>
      rw [hcb] at h
      cases hcl : convList name bs with
      | none => rw [hcl] at h; cases h
      | some rest =>
        rw [hcl] at h
        injection h with h
        subst h
        cases hm with
        | head => exact ⟨b, List.mem_cons_self _ _, hcb, rfl⟩
        | tail _ hm =>
          obtain ⟨b', hb', hcb', hst⟩ := ih rest hcl hm
          exact ⟨b', List.mem_cons_of_mem _ hb', hcb', hst⟩

theorem convList_values (name : List Char) (bs : List BackupEntry)
    (entries : List (List Char × List Char))
    (h : convList name bs = some entries) :
    ∀ p ∈ entries, p.2 = name := by
  induction bs generalizing entries with
  | nil =>
    unfold convList at h
    injection h with h
    subst h
    intro p hp
    cases hp
  | cons b bs ih =>
    unfold convList at h
    cases hcb : convEntry b with
    | none => rw [hcb] at h; cases h
    | some id0 =>
      rw [hcb] at h
      cases hcl : convList name bs with
      | none => rw [hcl] at h; cases h
      | some rest =>
        rw [hcl] at h
        injection h with h
        subst h
        intro p hp
        cases hp with
        | head => rfl
        | tail _ hp => exact ih rest hcl p hp

theorem convList_filter (name : List Char) (p : BackupEntry → Bool)
    (bs : List BackupEntry) (entries : List (List Char × List Char))
    (h : convList name bs = some entries) :
    convList name (bs.filter p) =
      some (((bs.zip entries).filter (fun q => p q.1)).map Prod.snd) := by
  induction bs generalizing entries with
  | nil =>
    unfold convList at h
    injection h with h
    subst h
    rfl
  | cons b bs ih =>
    unfold convList at h
    cases hcb : convEntry b with
    | none => rw [hcb] at h; cases h
    | some id0 =>
      rw [hcb] at h
      cases hcl : convList name bs with
      | none => rw [hcl] at h; cases h
      | some rest =>
        rw [hcl] at h
        injection h with h
        subst h
        have ihr := ih rest hcl
        by_cases hp : p b
        · simp only [List.filter_cons, hp, if_true, List.zip_cons_cons]
          unfold convList
          rw [hcb, ihr]
          simp [hp]
        · have hfb : p b = false := by
            rw [Bool.eq_false_iff]
            exact hp
          simp only [List.filter_cons, hfb, Bool.false_eq_true, if_false,
            List.zip_cons_cons]
          rw [ihr]

theorem keys_map_replace (m : List (List Char × List Char)) (k v : List Char) :
    (m.map (fun kv => if kv.1 = k then (k, v) else kv)).map Prod.fst =
      m.map Prod.fst := by
  induction m with
  | nil => rfl
  | cons q m ih =>
    simp only [List.map_cons, ih]
    congr 1
    split
    · rename_i hq
      exact hq.symm
    · rfl

theorem mem_keys_dictInsert (m : List (List Char × List Char)) (k v a : List Char) :
    a ∈ (dictInsert m k v).map Prod.fst ↔ a ∈ m.map Prod.fst ∨ a = k := by
  unfold dictInsert
  split
  · rename_i hc
    rw [keys_map_replace]
    have hk : k ∈ m.map Prod.fst := by
      simpa using List.mem_of_elem_eq_true hc
    constructor
    · exact Or.inl
    · rintro (h | h)
      · exact h
      · rw [h]; exact hk
  · simp [List.map_append]

theorem mem_keys_odict_aux (l acc : List (List Char × List Char)) (a : List Char) :
    a ∈ ((l.foldl (fun m kv => dictInsert m kv.1 kv.2) acc).map Prod.fst) ↔
      a ∈ acc.map Prod.fst ∨ a ∈ l.map Prod.fst := by
  induction l generalizing acc with
  | nil => simp
  | cons q l ih =>
    simp only [List.foldl_cons, ih, mem_keys_dictInsert, List.map_cons,
      List.mem_cons]
    tauto

theorem mem_keys_odict (l : List (List Char × List Char)) (a : List Char) :
    a ∈ (odictOfList l).map Prod.fst ↔ a ∈ l.map Prod.fst := by
  unfold odictOfList
  rw [mem_keys_odict_aux]
  simp

theorem mem_dictInsert (m : List (List Char × List Char)) (k v : List Char)
    (q : List Char × List Char) (h : q ∈ dictInsert m k v) :
    q ∈ m ∨ q = (k, v) := by
  unfold dictInsert at h
  split at h
  · obtain ⟨orig, ho, he⟩ := List.mem_map.mp h
    split at he
    · exact Or.inr he.symm
    · exact Or.inl (he ▸ ho)
  · rcases List.mem_append.mp h with h | h
    · exact Or.inl h
    · exact Or.inr (List.mem_singleton.mp h)

theorem odict_values_aux (l acc : List (List Char × List Char)) (c : List Char)
    (hacc : ∀ q ∈ acc, q.2 = c) (hl : ∀ q ∈ l, q.2 = c) :
    ∀ q ∈ l.foldl (fun m kv => dictInsert m kv.1 kv.2) acc, q.2 = c := by
  induction l generalizing acc with
  | nil => exact hacc
  | cons p l ih =>
    simp only [List.foldl_cons]
    apply ih
    · intro q hq
      rcases mem_dictInsert acc p.1 p.2 q hq with h | h
      · exact hacc q h
      · rw [h]
        exact hl p (List.mem_cons_self _ _)
    · intro q hq
      exact hl q (List.mem_cons_of_mem _ hq)

theorem odict_values (l : List (List Char × List Char)) (c : List Char)
    (hl : ∀ q ∈ l, q.2 = c) : ∀ q ∈ odictOfList l, q.2 = c :=
  odict_values_aux l [] c (by intro q hq; cases hq) hl

theorem odict_pair_mem (l : List (List Char × List Char)) (c a : List Char)
    (hv : ∀ q ∈ l, q.2 = c) :
    (a, c) ∈ odictOfList l ↔ a ∈ l.map Prod.fst := by
  constructor
  · intro h
    exact (mem_keys_odict l a).mp (List.mem_map_of_mem Prod.fst h)
  · intro h
    obtain ⟨q, hq, hfst⟩ := List.mem_map.mp ((mem_keys_odict l a).mpr h)
    have h2 := odict_values l c hv q hq
    have hqa : q = (a, c) := by
      cases q
      simp_all
    rwa [hqa] at hq

/-- Claim C6: a backup-id produced by the catalog listing, converted back to
the engine's internal label format (as the restore action does) and
re-converted to the public format (as the listing does), yields the
original backup-id. -/
theorem backup_id_roundtrip (repos : List RepoInfo)
    (entries : List (List Char × List Char)) (id st : List Char)
    (hl : listEntries repos true = some entries)
    (hm : (id, st) ∈ entries) :
    (idToLabel id).bind labelToId = some id := by
  unfold listEntries at hl
  cases hrep : repos.head? with
  | none =>
    rw [hrep] at hl
    injection hl with hl
    subst hl
    cases hm
  | some repo =>
    rw [hrep] at hl
    obtain ⟨b, _, hcb, _⟩ := convList_mem _ _ _ _ _ hl hm
    unfold convEntry labelToId at hcb
    cases hp : parsePg b.label.dropLast with
    | none => rw [hp] at hcb; cases hcb
    | some t =>
      rw [hp] at hcb
      injection hcb with hcb
      have hv : validTS t = true := validTS_of_parsePg _ _ hp
      subst hcb
      unfold idToLabel
      rw [parsePublic_printPublic t hv]
      simp only [Option.map_some', Option.some_bind]
      unfold labelToId
      have hdl : (printPg t ++ ['F']).dropLast = printPg t := by
        simp
      rw [hdl, parsePg_printPg t hv]
      rfl

/-- Claim C6 witness: the round trip at a concrete catalog produced from the
label `20230101-010203F`. -/
theorem backup_id_roundtrip_witness :
    (idToLabel ("2023-01-01T01:02:03Z".data)).bind labelToId =
      some ("2023-01-01T01:02:03Z".data) :=
  backup_id_roundtrip
    [⟨"modelname.cluster".data, [⟨"20230101-010203F".data, []⟩]⟩]
    [("2023-01-01T01:02:03Z".data, "modelname.cluster".data)]
    ("2023-01-01T01:02:03Z".data) ("modelname.cluster".data)
    (by decide) (by decide)

theorem mem_entries_of_mem_zip_filter_map
    (bs : List BackupEntry) (entries : List (List Char × List Char))
    (p : BackupEntry × (List Char × List Char) → Bool)
    (q : List Char × List Char)
    (hq : q ∈ ((bs.zip entries).filter p).map Prod.snd) : q ∈ entries := by
  obtain ⟨pr, hpr, heq⟩ := List.mem_map.mp hq
  have hzip := List.mem_of_mem_filter hpr
  have hmem := (List.of_mem_zip hzip).2
  rw [← heq]
  exact hmem

/-- Claim C7: for the same engine introspection output, the catalog listing
with show_failed = false is a subset of the listing with show_failed = true,
and the entries omitted from the underlying entry sequence are exactly those
whose error field is non-empty. -/
theorem list_backups_show_failed_subset (rc : Int) (repos : List RepoInfo)
    (m : List (List Char × List Char))
    (h : listBackupsResult rc repos true = some (Except.ok m)) :
    ∃ entries entriesOk,
      listEntries repos true = some entries ∧
      listEntries repos false = some entriesOk ∧
      listBackupsResult rc repos false = some (Except.ok (odictOfList entriesOk)) ∧
      m = odictOfList entries ∧
      entriesOk = (((headBackups repos).zip entries).filter
          (fun q => q.1.error.isEmpty)).map Prod.snd ∧
      (∀ p ∈ odictOfList entriesOk, p ∈ m) := by
  unfold listBackupsResult at h
  by_cases hrc : rc ≠ 0
  · rw [if_pos hrc] at h
    injection h with h
    exact Except.noConfusion h
  · rw [if_neg hrc] at h
    cases hle : listEntries repos true with
    | none => rw [hle] at h; cases h
    | some entries =>
      rw [hle] at h
      injection h with h
      injection h with h
      cases hrep : repos.head? with
      | none =>
        have hent : entries = [] := by
          unfold listEntries at hle
          rw [hrep] at hle
          injection hle with hle
          exact hle.symm
        subst hent
        refine ⟨[], [], rfl, ?_, ?_, h.symm, ?_, ?_⟩
        · unfold listEntries
          simp [hrep]
        · unfold listBackupsResult
          rw [if_neg hrc]
          have hLf : listEntries repos false = some [] := by
            unfold listEntries
            simp [hrep]
          rw [hLf]
        · unfold headBackups
          rw [hrep]
          rfl
        · intro p hp
          cases hp
      | some repo =>
        have htrue : convList repo.name (repo.backup.filter
            (fun b => true || b.error.isEmpty)) = some entries := by
          unfold listEntries at hle
          rw [hrep] at hle
          exact hle
        have hback : repo.backup.filter (fun b => true || b.error.isEmpty) =
            repo.backup := by simp
        rw [hback] at htrue
        have hfalse := convList_filter repo.name (fun b => b.error.isEmpty)
          repo.backup entries htrue
        have hLfalse : listEntries repos false =
            some (((repo.backup.zip entries).filter
              (fun q => q.1.error.isEmpty)).map Prod.snd) := by
          unfold listEntries
          rw [hrep]
          dsimp only
          have hfeq : repo.backup.filter (fun b => false || b.error.isEmpty) =
              repo.backup.filter (fun b => b.error.isEmpty) := by simp
          rw [hfeq]
          exact hfalse
        refine ⟨entries, _, rfl, hLfalse, ?_, h.symm, ?_, ?_⟩
        · unfold listBackupsResult
          rw [if_neg hrc, hLfalse]
        · unfold headBackups
          rw [hrep]
        · have hvAll : ∀ q ∈ entries, q.2 = repo.name :=
            convList_values _ _ _ htrue
          have hvOk : ∀ q ∈ ((repo.backup.zip entries).filter
              (fun q => q.1.error.isEmpty)).map Prod.snd, q.2 = repo.name :=
            fun q hq => hvAll q (mem_entries_of_mem_zip_filter_map _ _ _ _ hq)
          intro p hp
          have hp2 : p.2 = repo.name := odict_values _ _ hvOk p hp
          have hp1 : p.1 ∈ (((repo.backup.zip entries).filter
              (fun q => q.1.error.isEmpty)).map Prod.snd).map Prod.fst :=
            (mem_keys_odict _ _).mp (List.mem_map_of_mem Prod.fst hp)
          obtain ⟨q, hq, hq1⟩ := List.mem_map.mp hp1
          have hqe : q ∈ entries := mem_entries_of_mem_zip_filter_map _ _ _ _ hq
          have hk : p.1 ∈ entries.map Prod.fst := by
            rw [← hq1]
            exact List.mem_map_of_mem Prod.fst hqe
          have hmem : (p.1, repo.name) ∈ odictOfList entries :=
            (odict_pair_mem entries repo.name p.1 hvAll).mpr hk
          have hpe : p = (p.1, repo.name) := by
            cases p
            simp_all
          rw [h.symm, hpe]
          exact hmem

/-- Claim C7 witness: a concrete catalog with one finished and one failed
backup; the failed entry is omitted from the show_failed = false listing. -/
theorem list_backups_show_failed_subset_witness :
    ∃ entries entriesOk,
      listEntries [⟨"modelname.cluster".data,
          [⟨"20230101-010203F".data, []⟩,
           ⟨"20230202-010203F".data, "err".data⟩]⟩] true = some entries ∧
      listEntries [⟨"modelname.cluster".data,
          [⟨"20230101-010203F".data, []⟩,
           ⟨"20230202-010203F".data, "err".data⟩]⟩] false = some entriesOk ∧
      listBackupsResult 0 [⟨"modelname.cluster".data,
          [⟨"20230101-010203F".data, []⟩,
           ⟨"20230202-010203F".data, "err".data⟩]⟩] false =
        some (Except.ok (odictOfList entriesOk)) ∧
      odictOfList [("2023-01-01T01:02:03Z".data, "modelname.cluster".data),
          ("2023-02-02T01:02:03Z".data, "modelname.cluster".data)] =
        odictOfList entries ∧
      entriesOk = (((headBackups [⟨"modelname.cluster".data,
          [⟨"20230101-010203F".data, []⟩,
           ⟨"20230202-010203F".data, "err".data⟩]⟩]).zip entries).filter
          (fun q => q.1.error.isEmpty)).map Prod.snd ∧
      (∀ p ∈ odictOfList entriesOk,
        p ∈ odictOfList [("2023-01-01T01:02:03Z".data, "modelname.cluster".data),
          ("2023-02-02T01:02:03Z".data, "modelname.cluster".data)]) :=
  list_backups_show_failed_subset 0
    [⟨"modelname.cluster".data,
      [⟨"20230101-010203F".data, []⟩,
       ⟨"20230202-010203F".data, "err".data⟩]⟩]
    (odictOfList [("2023-01-01T01:02:03Z".data, "modelname.cluster".data),
      ("2023-02-02T01:02:03Z".data, "modelname.cluster".data)])
    (by rfl)

theorem dGet_dSet_self (d : List (List Char × SVal)) (k : List Char) (v : SVal) :
    dGet (dSet d k v) k = some v := by
  induction d with
  | nil => simp [dSet, dGet]
  | cons kv d ih =>
    unfold dSet
    split
    · simp [dGet]
    · rename_i h
      simp [dGet, h, ih]

theorem dGet_dSet_ne (d : List (List Char × SVal)) (k k' : List Char) (v : SVal)
    (h : k' ≠ k) : dGet (dSet d k v) k' = dGet d k' := by
  induction d with
  | nil => simp [dSet, dGet, Ne.symm h]
  | cons kv d ih =>
    unfold dSet
    split
    · rename_i hk
      unfold dGet
      rw [if_neg (fun he => h he.symm), if_neg]
      rw [hk]
      exact fun he => h he.symm
    · unfold dGet
      split
      · rfl
      · exact ih

theorem dGet_append (d d2 : List (List Char × SVal)) (k : List Char) :
    dGet (d ++ d2) k =
      match dGet d k with
      | some v => some v
      | none => dGet d2 k := by
  induction d with
  | nil => simp [dGet]
  | cons kv d ih =>
    show (if kv.1 = k then some kv.2 else dGet (d ++ d2) k) =
      match (if kv.1 = k then some kv.2 else dGet d k) with
      | some v => some v
      | none => dGet d2 k
    by_cases hk : kv.1 = k
    · rw [if_pos hk, if_pos hk]
    · rw [if_neg hk, if_neg hk]
      exact ih

theorem dGet_dSetDefault_of_mem (d : List (List Char × SVal)) (k k0 : List Char)
    (v : SVal) (w : SVal) (h : dGet d k = some w) :
    dGet (dSetDefault d k0 v) k = some w := by
  unfold dSetDefault
  split
  · exact h
  · rename_i hna
    by_cases hk : k = k0
    · subst hk
      rw [dHas, h] at hna
      simp at hna
    · rw [dGet_append, h]

theorem dGet_dSetDefault_self (d : List (List Char × SVal)) (k : List Char)
    (v : SVal) (h : dHas d k = false) :
    dGet (dSetDefault d k v) k = some v := by
  unfold dSetDefault
  rw [h]
  simp only [Bool.false_eq_true, if_false]
  rw [dGet_append]
  rw [dHas] at h
  cases hg : dGet d k with
  | none => simp [dGet]
  | some w => rw [hg] at h; simp at h

theorem dGet_dSetDefault_ne (d : List (List Char × SVal)) (k k0 : List Char)
    (v : SVal) (h : k ≠ k0) :
    dGet (dSetDefault d k0 v) k = dGet d k := by
  unfold dSetDefault
  split
  · rfl
  · rw [dGet_append]
    cases hg : dGet d k with
    | none => simp [dGet, Ne.symm h]
    | some w => rfl

theorem dGet_trimVals (d : List (List Char × SVal)) (k : List Char) :
    dGet (trimVals d) k = (dGet d k).map (fun v =>
      match v with
      | SVal.strVal s => SVal.strVal (pyStrip s)
      | v => v) := by
  induction d with
  | nil => simp [trimVals, dGet]
  | cons kv d ih =>
    unfold trimVals at ih ⊢
    simp only [List.map_cons]
    unfold dGet
    split
    · rfl
    · exact ih

theorem dGet_mem (d : List (List Char × SVal)) (k : List Char) (w : SVal)
    (h : dGet d k = some w) : ∃ kv, kv ∈ d ∧ kv.2 = w := by
  induction d with
  | nil => cases h
  | cons kv d ih =>
    unfold dGet at h
    split at h
    · injection h with h
      exact ⟨kv, List.mem_cons_self _ _, h⟩
    · obtain ⟨kv', hm, hv⟩ := ih h
      exact ⟨kv', List.mem_cons_of_mem _ hm, hv⟩

theorem dropWhile_head_not (p : Char → Bool) (l : List Char) (c : Char)
    (h : (l.dropWhile p).head? = some c) : p c = false := by
  induction l with
  | nil => cases h
  | cons a l ih =>
    rw [List.dropWhile_cons] at h
    split at h
    · exact ih h
    · rename_i hpa
      injection h with h
      rw [← h]
      exact Bool.eq_false_iff.mpr hpa

theorem getLast?_dropWhile (p : Char → Bool) (m : List Char) (c : Char)
    (h : (m.dropWhile p).getLast? = some c) : m.getLast? = some c := by
  obtain ⟨t, ht⟩ := List.dropWhile_suffix (l := m) p
  have hne : m.dropWhile p ≠ [] := by
    intro he
    rw [he] at h
    cases h
  rw [← ht, List.getLast?_append_of_ne_nil _ hne]
  exact h

theorem rdropWhile_getLast_not (p : Char → Bool) (l : List Char) (c : Char)
    (h : (l.rdropWhile p).getLast? = some c) : p c = false := by
  have hne : l.rdropWhile p ≠ [] := by
    intro he
    rw [he] at h
    cases h
  have hlast := List.rdropWhile_last_not (p := p) (l := l) hne
  obtain ⟨hh, he⟩ := List.mem_getLast?_eq_getLast (Option.mem_def.mpr h)
  rw [he]
  exact Bool.eq_false_iff.mpr hlast

theorem head?_rdropWhile (p : Char → Bool) (l : List Char) (c : Char)
    (h : (l.rdropWhile p).head? = some c) : l.head? = some c := by
  unfold List.rdropWhile at h
  rw [List.head?_reverse] at h
  have hg := getLast?_dropWhile p l.reverse c h
  rwa [List.getLast?_reverse] at hg

theorem dGet_s3Defaults_of_mem (d : List (List Char × SVal)) (k : List Char)
    (w : SVal) (h : dGet d k = some w) : dGet (s3Defaults d) k = some w := by
  unfold s3Defaults
  exact dGet_dSetDefault_of_mem _ _ _ _ _ (dGet_dSetDefault_of_mem _ _ _ _ _
    (dGet_dSetDefault_of_mem _ _ _ _ _ (dGet_dSetDefault_of_mem _ _ _ _ _ h)))

theorem dGet_s3Defaults_endpoint (d : List (List Char × SVal))
    (hstr : ∀ kv ∈ d, ∃ s, kv.2 = SVal.strVal s) :
    dGet (s3Defaults d) ("endpoint".data) =
      some (SVal.strVal (dGetStr d ("endpoint".data)
        "https://s3.amazonaws.com".data)) := by
  unfold s3Defaults
  rw [dGet_dSetDefault_ne _ _ _ _ (by decide),
    dGet_dSetDefault_ne _ _ _ _ (by decide),
    dGet_dSetDefault_ne _ _ _ _ (by decide)]
  by_cases hh : dHas d ("endpoint".data) = true
  · have hsome := hh
    rw [dHas] at hsome
    obtain ⟨w, hw⟩ := Option.isSome_iff_exists.mp hsome
    obtain ⟨kv, hm, hv⟩ := dGet_mem _ _ _ hw
    obtain ⟨s, hs⟩ := hstr kv hm
    have hws : w = SVal.strVal s := by rw [← hv, hs]
    rw [dGet_dSetDefault_of_mem _ _ _ _ _ hw, hws]
    unfold dGetStr
    rw [hw, hws]
  · have hf : dHas d ("endpoint".data) = false := Bool.eq_false_iff.mpr hh
    have hn : dGet d ("endpoint".data) = none := by
      rw [dHas] at hf
      cases hg : dGet d ("endpoint".data) with
      | none => rfl
      | some w => rw [hg] at hf; simp at hf
    rw [dGet_dSetDefault_self _ _ _ hf]
    unfold dGetStr
    rw [hn]

theorem dGet_s3Defaults_path (d : List (List Char × SVal))
    (hstr : ∀ kv ∈ d, ∃ s, kv.2 = SVal.strVal s) :
    dGet (s3Defaults d) ("path".data) =
      some (SVal.strVal (dGetStr d ("path".data) [])) := by
  unfold s3Defaults
  rw [dGet_dSetDefault_ne _ _ _ _ (by decide)]
  by_cases hh : dHas d ("path".data) = true
  · have hsome := hh
    rw [dHas] at hsome
    obtain ⟨w, hw⟩ := Option.isSome_iff_exists.mp hsome
    obtain ⟨kv, hm, hv⟩ := dGet_mem _ _ _ hw
    obtain ⟨s, hs⟩ := hstr kv hm
    have hws : w = SVal.strVal s := by rw [← hv, hs]
    have h2 := dGet_dSetDefault_of_mem (dSetDefault d ("endpoint".data)
        (SVal.strVal "https://s3.amazonaws.com".data)) ("path".data)
        ("region".data) SVal.noneVal w
      (dGet_dSetDefault_of_mem _ _ _ _ _ hw)
    rw [dGet_dSetDefault_of_mem _ _ _ _ _ h2, hws]
    unfold dGetStr
    rw [hw, hws]
  · have hf : dHas d ("path".data) = false := Bool.eq_false_iff.mpr hh
    have hn : dGet d ("path".data) = none := by
      rw [dHas] at hf
      cases hg : dGet d ("path".data) with
      | none => rfl
      | some w => rw [hg] at hf; simp at hf
    have h2 : dGet (dSetDefault (dSetDefault d ("endpoint".data)
        (SVal.strVal "https://s3.amazonaws.com".data)) ("region".data)
        SVal.noneVal) ("path".data) = none := by
      rw [dGet_dSetDefault_ne _ _ _ _ (by decide),
        dGet_dSetDefault_ne _ _ _ _ (by decide), hn]
    have hf2 : dHas (dSetDefault (dSetDefault d ("endpoint".data)
        (SVal.strVal "https://s3.amazonaws.com".data)) ("region".data)
        SVal.noneVal) ("path".data) = false := by
      rw [dHas, h2]
      rfl
    rw [dGet_dSetDefault_self _ _ _ hf2]
    unfold dGetStr
    rw [hn]

theorem dGetStr_eq (d : List (List Char × SVal)) (k dflt s : List Char)
    (h : dGet d k = some (SVal.strVal s)) : dGetStr d k dflt = s := by
  unfold dGetStr
  rw [h]

theorem rdrop_slash_getLast (x : List Char) :
    (x.rdropWhile (fun c => c == '/')).getLast? ≠ some '/' := by
  intro hx
  have h := rdropWhile_getLast_not _ _ _ hx
  simp at h

theorem strip_slash_head (x : List Char) :
    ((x.dropWhile (fun c => c == '/')).rdropWhile
      (fun c => c == '/')).head? ≠ some '/' := by
  intro hx
  have h1 := head?_rdropWhile _ _ _ hx
  have h2 := dropWhile_head_not _ _ _ h1
  simp at h2

/-- Claim C8 counterexample: on the input endpoint value `"x /"`, the
returned endpoint is `"x "`, which is not whitespace-trimmed — the trailing
slash is stripped only after trimming, exposing the whitespace before it. -/
theorem retrieve_s3_parameters_not_trimmed :
    dGet (retrieveS3Parameters
      [("bucket".data, SVal.strVal "b".data),
       ("access-key".data, SVal.strVal "a".data),
       ("secret-key".data, SVal.strVal "s".data),
       ("endpoint".data, SVal.strVal "x /".data)]).1 ("endpoint".data) =
      some (SVal.strVal "x ".data) ∧
    pyStrip "x ".data ≠ "x ".data := by
  constructor
  · decide
  · decide

/-- Claim C8 (amended): retrieval returns the empty parameter set plus the
missing-key list when a required key is absent; otherwise string values are
whitespace-trimmed before slash normalization (endpoint, path and bucket are
the trimmed values with slashes then stripped, which can re-expose
whitespace that preceded a stripped slash, and the normalized path is "/"
when the configured path is empty), endpoint defaults to
https://s3.amazonaws.com and has no trailing slash, path starts with "/"
and has no trailing slash unless it is exactly "/", and bucket has neither
leading nor trailing slashes. -/
theorem retrieve_s3_parameters_amended (d : List (List Char × SVal))
    (hstr : ∀ kv ∈ d, kv.2 ≠ SVal.noneVal) :
    (requiredS3Keys.filter (fun k => !(dHas d k)) ≠ [] →
      retrieveS3Parameters d = ([], requiredS3Keys.filter (fun k => !(dHas d k)))) ∧
    (requiredS3Keys.filter (fun k => !(dHas d k)) = [] →
      (retrieveS3Parameters d).2 = [] ∧
      dGet (retrieveS3Parameters d).1 ("endpoint".data) =
        some (SVal.strVal (rstripSlash (pyStrip
          (dGetStr d ("endpoint".data) "https://s3.amazonaws.com".data)))) ∧
      dGet (retrieveS3Parameters d).1 ("path".data) =
        some (SVal.strVal ('/' :: stripSlash (pyStrip
          (dGetStr d ("path".data) [])))) ∧
      dGet (retrieveS3Parameters d).1 ("bucket".data) =
        some (SVal.strVal (stripSlash (pyStrip (dGetStr d ("bucket".data) [])))) ∧
      (∀ s, dGet (retrieveS3Parameters d).1 ("endpoint".data) =
        some (SVal.strVal s) → s.getLast? ≠ some '/') ∧
      (∀ s, dGet (retrieveS3Parameters d).1 ("path".data) =
        some (SVal.strVal s) →
        s.head? = some '/' ∧ (s ≠ ['/'] → s.getLast? ≠ some '/')) ∧
      (∀ s, dGet (retrieveS3Parameters d).1 ("bucket".data) =
        some (SVal.strVal s) →
        s.head? ≠ some '/' ∧ s.getLast? ≠ some '/') ∧
      (∀ k v0, k ≠ "endpoint".data → k ≠ "path".data → k ≠ "bucket".data →
        dGet d k = some (SVal.strVal v0) →
        dGet (retrieveS3Parameters d).1 k = some (SVal.strVal (pyStrip v0)))) := by
  have hstr' : ∀ kv ∈ d, ∃ s, kv.2 = SVal.strVal s := by
    intro kv hm
    cases hv : kv.2 with
    | noneVal => exact absurd hv (hstr kv hm)
    | strVal s => exact ⟨s, rfl⟩
  constructor
  · intro hmiss
    unfold retrieveS3Parameters
    rw [if_pos hmiss]
  · intro hc
    have hres : retrieveS3Parameters d =
        (s3Step8 (s3Step7 (s3Step6 (trimVals (s3Defaults d)))), []) := by
      unfold retrieveS3Parameters
      rw [if_neg (by rw [hc]; simp)]
    have hT_e : dGet (trimVals (s3Defaults d)) ("endpoint".data) =
        some (SVal.strVal (pyStrip (dGetStr d ("endpoint".data)
          "https://s3.amazonaws.com".data))) := by
      rw [dGet_trimVals, dGet_s3Defaults_endpoint d hstr']
      rfl
    have hT_p : dGet (trimVals (s3Defaults d)) ("path".data) =
        some (SVal.strVal (pyStrip (dGetStr d ("path".data) []))) := by
      rw [dGet_trimVals, dGet_s3Defaults_path d hstr']
      rfl
    have hbucket : dHas d ("bucket".data) = true := by
      have hmem := List.filter_eq_nil_iff.mp hc ("bucket".data) (by decide)
      simp at hmem
      exact hmem
    have hT_b : dGet (trimVals (s3Defaults d)) ("bucket".data) =
        some (SVal.strVal (pyStrip (dGetStr d ("bucket".data) []))) := by
      have hsome := hbucket
      rw [dHas] at hsome
      obtain ⟨w, hw⟩ := Option.isSome_iff_exists.mp hsome
      obtain ⟨kv, hm, hv⟩ := dGet_mem _ _ _ hw
      obtain ⟨s, hs⟩ := hstr' kv hm
      have hws : w = SVal.strVal s := by rw [← hv, hs]
      rw [dGet_trimVals, dGet_s3Defaults_of_mem _ _ _ hw, hws]
      have hgs : dGetStr d ("bucket".data) [] = s := by
        unfold dGetStr
        rw [hw, hws]
      rw [hgs]
      rfl
    have hFin_e : dGet (retrieveS3Parameters d).1 ("endpoint".data) =
        some (SVal.strVal (rstripSlash (pyStrip (dGetStr d ("endpoint".data)
          "https://s3.amazonaws.com".data)))) := by
      rw [hres]
      show dGet (s3Step8 (s3Step7 (s3Step6 (trimVals (s3Defaults d)))))
        ("endpoint".data) = _
      unfold s3Step8 s3Step7
      rw [dGet_dSet_ne _ _ _ _ (by decide), dGet_dSet_ne _ _ _ _ (by decide)]
      unfold s3Step6
      rw [dGet_dSet_self]
      rw [dGetStr_eq _ _ _ _ hT_e]
    have hY_p : dGet (s3Step6 (trimVals (s3Defaults d))) ("path".data) =
        some (SVal.strVal (pyStrip (dGetStr d ("path".data) []))) := by
      unfold s3Step6
      rw [dGet_dSet_ne _ _ _ _ (by decide)]
      exact hT_p
    have hFin_p : dGet (retrieveS3Parameters d).1 ("path".data) =
        some (SVal.strVal ('/' :: stripSlash (pyStrip
          (dGetStr d ("path".data) [])))) := by
      rw [hres]
      show dGet (s3Step8 (s3Step7 (s3Step6 (trimVals (s3Defaults d)))))
        ("path".data) = _
      unfold s3Step8
      rw [dGet_dSet_ne _ _ _ _ (by decide)]
      unfold s3Step7
      rw [dGet_dSet_self]
      rw [dGetStr_eq _ _ _ _ hY_p]
    have hZ_b : dGet (s3Step7 (s3Step6 (trimVals (s3Defaults d)))) ("bucket".data) =
        some (SVal.strVal (pyStrip (dGetStr d ("bucket".data) []))) := by
      unfold s3Step7 s3Step6
      rw [dGet_dSet_ne _ _ _ _ (by decide), dGet_dSet_ne _ _ _ _ (by decide)]
      exact hT_b
    have hFin_b : dGet (retrieveS3Parameters d).1 ("bucket".data) =
        some (SVal.strVal (stripSlash (pyStrip (dGetStr d ("bucket".data) [])))) := by
      rw [hres]
      show dGet (s3Step8 (s3Step7 (s3Step6 (trimVals (s3Defaults d)))))
        ("bucket".data) = _
      unfold s3Step8
      rw [dGet_dSet_self]
      rw [dGetStr_eq _ _ _ _ hZ_b]
    refine ⟨by rw [hres], hFin_e, hFin_p, hFin_b, ?_, ?_, ?_, ?_⟩
    · intro s hs
      rw [hFin_e] at hs
      injection hs with hs
      injection hs with hs
      rw [← hs]
      exact rdrop_slash_getLast _
    · intro s hs
      rw [hFin_p] at hs
      injection hs with hs
      injection hs with hs
      rw [← hs]
      constructor
      · rfl
      · intro hne hlast
        cases hcore : stripSlash (pyStrip (dGetStr d ("path".data) [])) with
        | nil => rw [hcore] at hne; exact hne rfl
        | cons b r =>
          rw [hcore] at hlast
          rw [List.getLast?_cons_cons] at hlast
          have := rdrop_slash_getLast
            ((pyStrip (dGetStr d ("path".data) [])).dropWhile (fun c => c == '/'))
          unfold stripSlash at hcore
          rw [hcore] at this
          exact this hlast
    · intro s hs
      rw [hFin_b] at hs
      injection hs with hs
      injection hs with hs
      rw [← hs]
      constructor
      · exact strip_slash_head _
      · intro hlast
        have := rdrop_slash_getLast
          ((pyStrip (dGetStr d ("bucket".data) [])).dropWhile (fun c => c == '/'))
        unfold stripSlash at hlast
        exact this hlast
    · intro k v0 hke hkp hkb hv
      rw [hres]
      show dGet (s3Step8 (s3Step7 (s3Step6 (trimVals (s3Defaults d))))) k = _
      unfold s3Step8 s3Step7 s3Step6
      rw [dGet_dSet_ne _ _ _ _ hkb, dGet_dSet_ne _ _ _ _ hkp,
        dGet_dSet_ne _ _ _ _ hke]
      rw [dGet_trimVals, dGet_s3Defaults_of_mem _ _ _ hv]
      rfl

/-- Claim C8 witness: the amended theorem applied at a concrete complete
parameter set with a path needing normalization. -/
theorem retrieve_s3_parameters_amended_witness :
    dGet (retrieveS3Parameters
      [("bucket".data, SVal.strVal "b/".data),
       ("access-key".data, SVal.strVal " a ".data),
       ("secret-key".data, SVal.strVal "s".data),
       ("path".data, SVal.strVal "pg/".data)]).1 ("path".data) =
      some (SVal.strVal "/pg".data) :=
  (((retrieve_s3_parameters_amended
      [("bucket".data, SVal.strVal "b/".data),
       ("access-key".data, SVal.strVal " a ".data),
       ("secret-key".data, SVal.strVal "s".data),
       ("path".data, SVal.strVal "pg/".data)]
      (by decide)).2 (by decide)).2.2.1)

theorem osJoin_absolute (a b : List Char) (h : b.head? = some '/') :
    osJoin a b = b := by
  unfold osJoin
  rw [if_pos h]

theorem lstrip_single_slash (rest : List Char) (h : rest.head? ≠ some '/') :
    lstripSlash ('/' :: rest) = rest := by
  unfold lstripSlash
  rw [List.dropWhile_cons, if_pos (by decide)]
  cases rest with
  | nil => rfl
  | cons x xs =>
    have hx : (x == '/') = false := by
      rw [beq_eq_false_iff_ne]
      intro he
      apply h
      rw [he]
      rfl
    simp [List.dropWhile_cons, hx]

/-- Claim C10: when the caller-supplied logical path is built by joining the
normalized S3 path prefix with a non-empty relative path (as the two upload
call sites do), the second join inside `_upload_content_to_s3` discards its
first argument, and the produced object key is the supplied path with its
leading slash stripped — the prefix is never duplicated. -/
theorem upload_key_no_duplicate (q r : List Char) (hr : r ≠ [])
    (hrh : r.head? ≠ some '/') :
    osJoin (normPath q) (osJoin (normPath q) r) = osJoin (normPath q) r ∧
    uploadKey (normPath q) (osJoin (normPath q) r) =
      (osJoin (normPath q) r).tail ∧
    (osJoin (normPath q) r).head? = some '/' := by
  have hcoreHead : (stripSlash q).head? ≠ some '/' := strip_slash_head q
  cases hcore : stripSlash q with
  | nil =>
    have hs : osJoin (normPath q) r = '/' :: r := by
      unfold osJoin normPath
      rw [hcore, if_neg hrh, if_neg (by simp), if_pos (by decide)]
      rfl
    have hshead : (osJoin (normPath q) r).head? = some '/' := by
      rw [hs]
      rfl
    refine ⟨osJoin_absolute _ _ hshead, ?_, hshead⟩
    unfold uploadKey
    rw [osJoin_absolute _ _ hshead, hs, lstrip_single_slash r hrh]
    rfl
  | cons c cs =>
    have hchead : c ≠ '/' := by
      intro he
      apply hcoreHead
      rw [hcore, he]
      rfl
    have hplast : (normPath q).getLast? ≠ some '/' := by
      unfold normPath
      rw [hcore, List.getLast?_cons_cons]
      have hrd := rdrop_slash_getLast (q.dropWhile (fun c => c == '/'))
      unfold stripSlash at hcore
      rw [hcore] at hrd
      exact hrd
    have hs : osJoin (normPath q) r = '/' :: (c :: cs ++ '/' :: r) := by
      unfold osJoin
      rw [if_neg hrh, if_neg (by unfold normPath; simp), if_neg hplast]
      unfold normPath
      rw [hcore]
      rfl
    have hshead : (osJoin (normPath q) r).head? = some '/' := by
      rw [hs]
      rfl
    refine ⟨osJoin_absolute _ _ hshead, ?_, hshead⟩
    unfold uploadKey
    rw [osJoin_absolute _ _ hshead, hs,
      lstrip_single_slash _ (by intro hh; injection hh with hh; exact hchead hh)]
    rfl

/-- Claim C10 witness: concrete normalized prefix `/pg` and relative path
`backup/x`. -/
theorem upload_key_no_duplicate_witness :
    osJoin (normPath "pg".data) (osJoin (normPath "pg".data) "backup/x".data) =
      osJoin (normPath "pg".data) "backup/x".data ∧
    uploadKey (normPath "pg".data) (osJoin (normPath "pg".data) "backup/x".data) =
      (osJoin (normPath "pg".data) "backup/x".data).tail ∧
    (osJoin (normPath "pg".data) "backup/x".data).head? = some '/' :=
  upload_key_no_duplicate "pg".data "backup/x".data (by decide) (by decide)

/-- Claim C5: the eligibility predicate reports the first failing
precondition in the stated order, and in particular denies
(primary, two units, TLS), denies (replica, no TLS), and lets
(primary, one unit, no TLS) through to the running/stanza/S3 checks. -/
theorem can_unit_perform_backup_c5 :
    (∀ e, canUnitPerformBackup e = canUnitPerformBackupSpec e) ∧
    (∀ e, e.isBlocked = false → e.isPrimary = true → e.plannedUnits = 2 →
      e.tlsEnabled = true →
      canUnitPerformBackup e = some Msg.primaryCannotBackup) ∧
    (∀ e, e.isBlocked = false → e.isPrimary = false → e.tlsEnabled = false →
      canUnitPerformBackup e = some Msg.tlsNotEnabled) ∧
    (∀ e, e.isBlocked = false → e.isPrimary = true → e.plannedUnits = 1 →
      e.tlsEnabled = false →
      canUnitPerformBackup e =
        (if !e.memberStarted then some Msg.notRunning
         else if !e.stanzaSet then some Msg.stanzaNotInitialised
         else areBackupSettingsOk e.s3RelationPresent e.s3Info)) := by
  refine ⟨?_, ?_, ?_, ?_⟩
  · intro e
    obtain ⟨b, tls, prim, units, started, stanza, rel, info⟩ := e
    cases b <;> cases prim <;> cases tls <;> cases started <;> cases stanza <;>
      by_cases hu : 1 < units <;>
      simp [canUnitPerformBackup, canUnitPerformBackupSpec, backupDenialChecks,
        List.find?, hu]
  · intro e hb hp hu htls
    simp [canUnitPerformBackup, hb, hp, hu, htls]
  · intro e hb hp htls
    simp [canUnitPerformBackup, hb, hp, htls]
  · intro e hb hp hu htls
    simp [canUnitPerformBackup, hb, hp, hu, htls]

/-- Claim C5 witness: the three concrete role configurations from the claim,
evaluated on otherwise-fixed environments. -/
theorem can_unit_perform_backup_c5_witness :
    canUnitPerformBackup ⟨false, true, true, 2, true, true, true, []⟩ =
      some Msg.primaryCannotBackup ∧
    canUnitPerformBackup ⟨false, false, false, 1, true, true, true, []⟩ =
      some Msg.tlsNotEnabled ∧
    canUnitPerformBackup ⟨false, false, true, 1, true, true, true, []⟩ =
      (if !(true : Bool) then some Msg.notRunning
       else if !(true : Bool) then some Msg.stanzaNotInitialised
       else areBackupSettingsOk true []) :=
  ⟨can_unit_perform_backup_c5.2.1 ⟨false, true, true, 2, true, true, true, []⟩
      rfl rfl rfl rfl,
   can_unit_perform_backup_c5.2.2.1 ⟨false, false, false, 1, true, true, true, []⟩
      rfl rfl rfl,
   can_unit_perform_backup_c5.2.2.2 ⟨false, false, true, 1, true, true, true, []⟩
      rfl rfl rfl rfl⟩

theorem countExec_attemptEvents (a : Attempt) :
    (attemptEvents a).count SEv.execCheck = 1 := by
  unfold attemptEvents
  by_cases h : a.memberStarted = true <;> simp [h]

theorem sleepsOf_attemptEvents (a : Attempt) : sleepsOf (attemptEvents a) = [] := by
  unfold attemptEvents sleepsOf
  by_cases h : a.memberStarted = true <;> simp [h]

theorem retryCheck_count_le (attempts : Nat → Attempt) :
    ∀ fuel i, (retryCheck attempts i fuel).2.count SEv.execCheck ≤ fuel := by
  intro fuel
  induction fuel with
  | zero => intro i; simp [retryCheck]
  | succ f ih =>
    intro i
    unfold retryCheck
    dsimp only
    split
    · simp [countExec_attemptEvents]
    · split
      · simp [countExec_attemptEvents]
      · dsimp only
        have hc := countExec_attemptEvents (attempts i)
        have hi := ih (i + 1)
        simp only [List.count_append, List.count_cons, hc]
        have hne : (SEv.sleep 3 == SEv.execCheck) = false := by decide
        simp only [hne, Bool.false_eq_true, if_false]
        omega

theorem retryCheck_all_fail (attempts : Nat → Attempt) :
    ∀ fuel i, fuel ≠ 0 → (∀ j, j < fuel → (attempts (i + j)).rc ≠ 0) →
    (retryCheck attempts i fuel).1 = false ∧
    (retryCheck attempts i fuel).2.count SEv.execCheck = fuel ∧
    sleepsOf (retryCheck attempts i fuel).2 = List.replicate (fuel - 1) 3 := by
  intro fuel
  induction fuel with
  | zero => intro i h; exact absurd rfl h
  | succ f ih =>
    intro i _ hall
    have h0 : (attempts i).rc ≠ 0 := by
      have h := hall 0 (by omega)
      rwa [Nat.add_zero] at h
    unfold retryCheck
    dsimp only
    rw [if_neg h0]
    by_cases hf : f = 0
    · subst hf
      rw [if_pos rfl]
      exact ⟨rfl, countExec_attemptEvents _, by
        rw [sleepsOf_attemptEvents]; rfl⟩
    · rw [if_neg hf]
      have ih' := ih (i + 1) hf (fun j hj => by
        have h := hall (j + 1) (by omega)
        rwa [show i + (j + 1) = i + 1 + j by omega] at h)
      dsimp only
      refine ⟨ih'.1, ?_, ?_⟩
      · have hc := countExec_attemptEvents (attempts i)
        simp only [List.count_append, List.count_cons, hc, ih'.2.1]
        have hne : (SEv.sleep 3 == SEv.execCheck) = false := by decide
        simp only [hne, Bool.false_eq_true, if_false]
        omega
      · unfold sleepsOf
        rw [List.filterMap_append]
        have hs := sleepsOf_attemptEvents (attempts i)
        unfold sleepsOf at hs
        rw [hs, List.nil_append, List.filterMap_cons]
        dsimp only
        have hs2 := ih'.2.2
        unfold sleepsOf at hs2
        rw [hs2]
        have hrep : f - 1 + 1 = f := by omega
        rw [show (3 :: List.replicate (f - 1) 3) =
          List.replicate (f - 1 + 1) 3 from rfl, hrep]
        rfl

theorem retryCheck_success (attempts : Nat → Attempt) :
    ∀ fuel i, (∃ j, j < fuel ∧ (attempts (i + j)).rc = 0) →
    (retryCheck attempts i fuel).1 = true := by
  intro fuel
  induction fuel with
  | zero =>
    rintro i ⟨j, hj, _⟩
    omega
  | succ f ih =>
    rintro i ⟨j, hj, h0⟩
    unfold retryCheck
    dsimp only
    by_cases h : (attempts i).rc = 0
    · rw [if_pos h]
    · rw [if_neg h]
      have hj0 : j ≠ 0 := by
        intro he
        subst he
        rw [Nat.add_zero] at h0
        exact h h0
      by_cases hf : f = 0
      · subst hf
        omega
      · rw [if_neg hf]
        dsimp only
        exact ih (i + 1) ⟨j - 1, by omega, by
          rw [show i + 1 + (j - 1) = i + j by omega]
          exact h0⟩

/-- Claim C2: on the leader with the init-pending marker set, the check
sub-command runs at most 5 times with a fixed 3-second delay between
attempts; if all 5 attempts fail the stanza name is cleared, configuration
is reverted (a final config update closes the trace) and the status becomes
Blocked(FailedToInitializeStanza); if an attempt succeeds the status becomes
Active; in both outcomes the init-pending marker is cleared. -/
theorem check_stanza_c2 (attempts : Nat → Attempt) (st : StState)
    (hpend : st.peer.initPgbackrest = true) :
    (checkStanza true attempts st).2.count SEv.execCheck ≤ 5 ∧
    (checkStanza true attempts st).1.peer.initPgbackrest = false ∧
    ((∀ j, j < 5 → (attempts j).rc ≠ 0) →
      (checkStanza true attempts st).2.count SEv.execCheck = 5 ∧
      sleepsOf (checkStanza true attempts st).2 = List.replicate 4 3 ∧
      (checkStanza true attempts st).1.peer.stanza = some [] ∧
      (checkStanza true attempts st).1.status =
        Status.blocked BlockedMsg.failedInitStanza ∧
      (checkStanza true attempts st).2.getLast? = some SEv.updateConfig) ∧
    ((∃ j, j < 5 ∧ (attempts j).rc = 0) →
      (checkStanza true attempts st).1.status = Status.active) := by
  have hcs : checkStanza true attempts st =
      (if (retryCheck attempts 0 5).1 then
        ({ peer := { stanza := st.peer.stanza, initPgbackrest := false },
           status := Status.active },
          SEv.updateConfig :: (retryCheck attempts 0 5).2)
      else
        ({ peer := { stanza := some [], initPgbackrest := false },
           status := Status.blocked BlockedMsg.failedInitStanza },
          (SEv.updateConfig :: (retryCheck attempts 0 5).2) ++
            [SEv.updateConfig])) := by
    unfold checkStanza
    rw [if_neg (by rw [hpend]; decide)]
  refine ⟨?_, ?_, ?_, ?_⟩
  · rw [hcs]
    split
    · have hle := retryCheck_count_le attempts 5 0
      simp only [List.count_cons]
      have hne : (SEv.updateConfig == SEv.execCheck) = false := by decide
      simp only [hne, Bool.false_eq_true, if_false]
      omega
    · have hle := retryCheck_count_le attempts 5 0
      simp only [List.count_append, List.count_cons]
      have hne : (SEv.updateConfig == SEv.execCheck) = false := by decide
      simp only [hne, Bool.false_eq_true, if_false, List.count_nil]
      omega
  · rw [hcs]
    split <;> rfl
  · intro hall
    have hfail := retryCheck_all_fail attempts 5 0 (by omega)
      (fun j hj => by rw [Nat.zero_add]; exact hall j hj)
    rw [hcs, if_neg (by rw [hfail.1]; exact Bool.false_ne_true)]
    refine ⟨?_, ?_, rfl, rfl, ?_⟩
    · simp only [List.count_append, List.count_cons, hfail.2.1]
      have hne : (SEv.updateConfig == SEv.execCheck) = false := by decide
      simp only [hne, Bool.false_eq_true, if_false, List.count_nil]
    · unfold sleepsOf
      rw [List.filterMap_append, List.filterMap_cons]
      dsimp only
      have hs := hfail.2.2
      unfold sleepsOf at hs
      rw [hs]
      rfl
    · rw [List.getLast?_concat]
  · rintro ⟨j, hj, h0⟩
    have hsucc := retryCheck_success attempts 5 0
      ⟨j, hj, by rw [Nat.zero_add]; exact h0⟩
    rw [hcs, if_pos hsucc]

/-- Claim C2 witness: five consecutive failing attempts on a pending
leader. -/
theorem check_stanza_c2_witness :
    (checkStanza true (fun _ => ⟨false, 1⟩)
      ⟨⟨some "m.c".data, true⟩, Status.active⟩).2.count SEv.execCheck = 5 ∧
    sleepsOf (checkStanza true (fun _ => ⟨false, 1⟩)
      ⟨⟨some "m.c".data, true⟩, Status.active⟩).2 = List.replicate 4 3 ∧
    (checkStanza true (fun _ => ⟨false, 1⟩)
      ⟨⟨some "m.c".data, true⟩, Status.active⟩).1.peer.stanza = some [] ∧
    (checkStanza true (fun _ => ⟨false, 1⟩)
      ⟨⟨some "m.c".data, true⟩, Status.active⟩).1.status =
      Status.blocked BlockedMsg.failedInitStanza ∧
    (checkStanza true (fun _ => ⟨false, 1⟩)
      ⟨⟨some "m.c".data, true⟩, Status.active⟩).2.getLast? =
      some SEv.updateConfig :=
  (check_stanza_c2 (fun _ => ⟨false, 1⟩)
    ⟨⟨some "m.c".data, true⟩, Status.active⟩ rfl).2.2.1
    (by intro j hj; decide)

/-- Claim C3 counterexample: on a successful `stanza-create` the code calls
`start_stop_pgbackrest_service()` (line 387) before recording the stanza
name and init-pending marker (line 390), so the claimed order — record,
then request the TLS service restart — is false. -/
theorem initialise_stanza_order_counterexample :
    (initialiseStanza ⟨true, 0, "m.c".data⟩
        ⟨⟨none, false⟩, Status.active⟩).2.2 =
      [SEv.execStanzaCreate, SEv.startStopService, SEv.recordStanza] ∧
    ¬ (∃ a b, (initialiseStanza ⟨true, 0, "m.c".data⟩
          ⟨⟨none, false⟩, Status.active⟩).2.2.findIdx?
            (fun e => e == SEv.recordStanza) = some a ∧
        (initialiseStanza ⟨true, 0, "m.c".data⟩
          ⟨⟨none, false⟩, Status.active⟩).2.2.findIdx?
            (fun e => e == SEv.startStopService) = some b ∧ a < b) := by
  constructor
  · rfl
  · rintro ⟨a, b, ha, hb, hab⟩
    have ha2 : (initialiseStanza ⟨true, 0, "m.c".data⟩
        ⟨⟨none, false⟩, Status.active⟩).2.2.findIdx?
          (fun e => e == SEv.recordStanza) = some 2 := rfl
    have hb1 : (initialiseStanza ⟨true, 0, "m.c".data⟩
        ⟨⟨none, false⟩, Status.active⟩).2.2.findIdx?
          (fun e => e == SEv.startStopService) = some 1 := rfl
    rw [ha2] at ha
    rw [hb1] at hb
    injection ha with ha
    injection hb with hb
    omega

/-- Claim C3 (amended): in stanza initialization on the leader (with no
unrelated blocked condition), exit code 49 raises the distinguished timeout
error; any other non-zero exit code sets Blocked(FailedToInitializeStanza)
and returns without recording the stanza name or the init-pending marker;
on exit code 0 the backup-engine TLS service restart is requested and THEN
the stanza name and the init-pending marker are recorded. -/
theorem initialise_stanza_c3_amended (env : InitEnv) (st : StState)
    (hl : env.isLeader = true)
    (hguard : st.status.isBlocked = false ∨ s3BlockStatus st.status = true) :
    (env.rc = 49 →
      (initialiseStanza env st).1 = InitResult.timedOut ∧
      (initialiseStanza env st).2.1.peer = st.peer ∧
      SEv.recordStanza ∉ (initialiseStanza env st).2.2) ∧
    (env.rc ≠ 49 → env.rc ≠ 0 →
      (initialiseStanza env st).1 = InitResult.completed ∧
      (initialiseStanza env st).2.1.status =
        Status.blocked BlockedMsg.failedInitStanza ∧
      (initialiseStanza env st).2.1.peer = st.peer ∧
      SEv.recordStanza ∉ (initialiseStanza env st).2.2) ∧
    (env.rc = 0 →
      (initialiseStanza env st).2.1.peer =
        ⟨some env.stanzaName, true⟩ ∧
      (initialiseStanza env st).2.2 =
        [SEv.execStanzaCreate, SEv.startStopService, SEv.recordStanza] ∧
      (∃ a b, (initialiseStanza env st).2.2.findIdx?
          (fun e => e == SEv.startStopService) = some a ∧
        (initialiseStanza env st).2.2.findIdx?
          (fun e => e == SEv.recordStanza) = some b ∧ a < b)) := by
  have hg2 : (st.status.isBlocked && !(s3BlockStatus st.status)) = false := by
    rcases hguard with h | h
    · rw [h]
      rfl
    · rw [h]
      simp
  refine ⟨?_, ?_, ?_⟩
  · intro h49
    unfold initialiseStanza
    rw [if_neg (by rw [hl]; decide), if_neg (by rw [hg2]; decide),
      if_pos h49]
    exact ⟨rfl, rfl, by simp⟩
  · intro h49 h0
    unfold initialiseStanza
    rw [if_neg (by rw [hl]; decide), if_neg (by rw [hg2]; decide),
      if_neg h49, if_pos h0]
    exact ⟨rfl, rfl, rfl, by simp⟩
  · intro h0
    unfold initialiseStanza
    rw [if_neg (by rw [hl]; decide), if_neg (by rw [hg2]; decide),
      if_neg (by rw [h0]; decide), if_neg (by rw [h0]; decide)]
    exact ⟨rfl, rfl, ⟨1, 2, rfl, rfl, by omega⟩⟩

/-- Claim C3 witness: a successful stanza-create on an unblocked leader
records the stanza and the init marker after the service restart request. -/
theorem initialise_stanza_c3_witness :
    (initialiseStanza ⟨true, 0, "m.c".data⟩
        ⟨⟨none, false⟩, Status.active⟩).2.1.peer =
      ⟨some "m.c".data, true⟩ ∧
    (initialiseStanza ⟨true, 0, "m.c".data⟩
        ⟨⟨none, false⟩, Status.active⟩).2.2 =
      [SEv.execStanzaCreate, SEv.startStopService, SEv.recordStanza] ∧
    (∃ a b, (initialiseStanza ⟨true, 0, "m.c".data⟩
        ⟨⟨none, false⟩, Status.active⟩).2.2.findIdx?
          (fun e => e == SEv.startStopService) = some a ∧
      (initialiseStanza ⟨true, 0, "m.c".data⟩
        ⟨⟨none, false⟩, Status.active⟩).2.2.findIdx?
          (fun e => e == SEv.recordStanza) = some b ∧ a < b) :=
  (initialise_stanza_c3_amended ⟨true, 0, "m.c".data⟩
    ⟨⟨none, false⟩, Status.active⟩ rfl (Or.inl rfl)).2.2 rfl

/-- Claim C4: a successful backup whose log upload fails reports failure;
a failed backup attempts the log upload but fails with the engine's stderr
regardless of the upload result. -/
theorem run_backup_c4 (env : RunBackupEnv) :
    (∀ cat kv, env.rc = 0 →
      listBackupsResult env.listRc env.listRepos true = some (Except.ok cat) →
      cat.getLast? = some kv → env.uploadLogOk = false →
      (runBackup env).1 = ActionOutcome.failed Msg.errorUploadingLogs ∧
      (∃ k, BEv.uploadLog k ∈ (runBackup env).2)) ∧
    (env.rc ≠ 0 →
      (runBackup env).1 = ActionOutcome.failed (Msg.failedBackup env.stderr) ∧
      (∃ k, BEv.uploadLog k ∈ (runBackup env).2)) := by
  constructor
  · intro cat kv h0 hlist hlast hup
    unfold runBackup
    rw [if_neg (by rw [h0]; decide), hlist]
    dsimp only
    rw [hlast]
    dsimp only
    rw [if_neg (by rw [hup]; decide)]
    exact ⟨rfl, ⟨backupLogKey env.s3Path env.stanzaName kv.1, by simp⟩⟩
  · intro hrc
    unfold runBackup
    rw [if_pos hrc]
    exact ⟨rfl, ⟨backupLogKey env.s3Path env.stanzaName
      ((firstLabel env.stdoutLines).getD (printPg env.now ++ ['F'])), by simp⟩⟩

/-- Claim C4 witness: a successful backup with a concrete one-entry catalog
and a failing log upload, and a failed backup with the same environment. -/
theorem run_backup_c4_witness :
    (runBackup ⟨true, 0, [], "e".data, 0,
      [⟨"m.c".data, [⟨"20230101-010203F".data, []⟩]⟩], false,
      ⟨2023, 1, 1, 1, 2, 3⟩, "/pg".data, "m.c".data⟩).1 =
      ActionOutcome.failed Msg.errorUploadingLogs ∧
    (runBackup ⟨true, 1, [], "e".data, 0,
      [⟨"m.c".data, [⟨"20230101-010203F".data, []⟩]⟩], false,
      ⟨2023, 1, 1, 1, 2, 3⟩, "/pg".data, "m.c".data⟩).1 =
      ActionOutcome.failed (Msg.failedBackup "e".data) :=
  ⟨((run_backup_c4 ⟨true, 0, [], "e".data, 0,
      [⟨"m.c".data, [⟨"20230101-010203F".data, []⟩]⟩], false,
      ⟨2023, 1, 1, 1, 2, 3⟩, "/pg".data, "m.c".data⟩).1
      (odictOfList [("2023-01-01T01:02:03Z".data, "m.c".data)])
      ("2023-01-01T01:02:03Z".data, "m.c".data)
      rfl (by rfl) (by rfl) rfl).1,
   ((run_backup_c4 ⟨true, 1, [], "e".data, 0,
      [⟨"m.c".data, [⟨"20230101-010203F".data, []⟩]⟩], false,
      ⟨2023, 1, 1, 1, 2, 3⟩, "/pg".data, "m.c".data⟩).2
      (by decide)).1⟩

/-- Claim C1: a restore invocation whose backup-id is not a key of the
failed-excluding catalog listing (or whose listing fails) fails the action
and never stops the database process or removes the data directory. -/
theorem restore_unknown_id_no_side_effects (env : RestoreEnv)
    (h : listBackupsResult env.listRc env.listRepos false =
        some (Except.error ()) ∨
      ∃ cat, listBackupsResult env.listRc env.listRepos false =
          some (Except.ok cat) ∧
        (env.backupIdParam.getD []) ∉ cat.map Prod.fst) :
    (∃ m, (restoreAction env).1 = ActionOutcome.failed m) ∧
    REv.stopPatroni ∉ (restoreAction env).2 ∧
    REv.emptyDataFiles ∉ (restoreAction env).2 := by
  unfold restoreAction
  cases hpc : preRestoreChecks env with
  | some m => exact ⟨⟨m, rfl⟩, by simp, by simp⟩
  | none =>
    dsimp only
    rcases h with h | ⟨cat, hc, hmem⟩
    · rw [h]
      exact ⟨⟨Msg.failedRetrieveBackupId, rfl⟩, by simp, by simp⟩
    · rw [hc]
      dsimp only
      cases hcon : (cat.map Prod.fst).contains (env.backupIdParam.getD []) with
      | true => exact absurd (List.mem_of_elem_eq_true hcon) hmem
      | false =>
        rw [if_pos (by decide)]
        exact ⟨⟨Msg.invalidBackupId (env.backupIdParam.getD []), rfl⟩,
          by simp, by simp⟩

/-- Claim C1 witness: passing pre-checks with a one-entry catalog and an
unknown requested backup-id. -/
theorem restore_unknown_id_no_side_effects_witness :
    (∃ m, (restoreAction ⟨true,
      [("bucket".data, SVal.strVal "b".data),
       ("access-key".data, SVal.strVal "a".data),
       ("secret-key".data, SVal.strVal "s".data)],
      some "2024-05-05T00:00:00Z".data, Status.active, 1, true, 0,
      [⟨"m.c".data, [⟨"20230101-010203F".data, []⟩]⟩],
      true, true, 0, []⟩).1 = ActionOutcome.failed m) ∧
    REv.stopPatroni ∉ (restoreAction ⟨true,
      [("bucket".data, SVal.strVal "b".data),
       ("access-key".data, SVal.strVal "a".data),
       ("secret-key".data, SVal.strVal "s".data)],
      some "2024-05-05T00:00:00Z".data, Status.active, 1, true, 0,
      [⟨"m.c".data, [⟨"20230101-010203F".data, []⟩]⟩],
      true, true, 0, []⟩).2 ∧
    REv.emptyDataFiles ∉ (restoreAction ⟨true,
      [("bucket".data, SVal.strVal "b".data),
       ("access-key".data, SVal.strVal "a".data),
       ("secret-key".data, SVal.strVal "s".data)],
      some "2024-05-05T00:00:00Z".data, Status.active, 1, true, 0,
      [⟨"m.c".data, [⟨"20230101-010203F".data, []⟩]⟩],
      true, true, 0, []⟩).2 :=
  restore_unknown_id_no_side_effects _
    (Or.inr ⟨odictOfList [("2023-01-01T01:02:03Z".data, "m.c".data)],
      by rfl, by decide⟩)

/-- Claim C9: for every restore that passes validation, the restore
directive written into shared configuration is the backup-id converted back
to the engine's timestamp format with the character F appended
unconditionally, so it always denotes a full backup regardless of the
type-suffix of the catalog entry the id came from. -/
theorem restore_directive_full_backup (env : RestoreEnv) (t : TS)
    (cat : List (List Char × List Char))
    (hpc : preRestoreChecks env = none)
    (hid : env.backupIdParam = some (printPublic t))
    (hv : validTS t = true)
    (hlist : listBackupsResult env.listRc env.listRepos false =
      some (Except.ok cat))
    (hmem : printPublic t ∈ cat.map Prod.fst)
    (hstop : env.stopOk = true) (hempty : env.emptyOk = true) :
    ∃ stz, REv.setDirective (printPg t ++ ['F']) stz ∈ (restoreAction env).2 ∧
      (printPg t ++ ['F']).getLast? = some 'F' := by
  unfold restoreAction
  rw [hpc]
  dsimp only
  rw [hlist]
  dsimp only
  rw [hid]
  dsimp only [Option.getD_some]
  rw [if_neg (by
      rw [show (List.map Prod.fst cat).contains (printPublic t) = true from
        List.elem_eq_true_of_mem hmem]
      decide),
    if_neg (by rw [hstop]; decide), if_neg (by rw [hempty]; decide),
    parsePublic_printPublic t hv]
  dsimp only
  by_cases hrm : env.removeRc ≠ 0
  · rw [if_pos hrm]
    exact ⟨((cat.find? (fun kv => kv.1 == printPublic t)).map Prod.snd).getD [],
      by simp, List.getLast?_concat _⟩
  · rw [if_neg hrm]
    exact ⟨((cat.find? (fun kv => kv.1 == printPublic t)).map Prod.snd).getD [],
      by simp, List.getLast?_concat _⟩

/-- Claim C9 witness: a catalog entry whose label has the differential
type-suffix D still yields a restore directive ending in F. -/
theorem restore_directive_full_backup_witness :
    ∃ stz, REv.setDirective (printPg ⟨2023, 1, 1, 1, 2, 3⟩ ++ ['F']) stz ∈
      (restoreAction ⟨true,
        [("bucket".data, SVal.strVal "b".data),
         ("access-key".data, SVal.strVal "a".data),
         ("secret-key".data, SVal.strVal "s".data)],
        some "2023-01-01T01:02:03Z".data, Status.active, 1, true, 0,
        [⟨"m.c".data, [⟨"20230101-010203D".data, []⟩]⟩],
        true, true, 0, []⟩).2 ∧
      (printPg ⟨2023, 1, 1, 1, 2, 3⟩ ++ ['F']).getLast? = some 'F' :=
  restore_directive_full_backup _ ⟨2023, 1, 1, 1, 2, 3⟩
    (odictOfList [("2023-01-01T01:02:03Z".data, "m.c".data)])
    (by rfl) (by rfl) (by decide) (by rfl) (by decide) rfl rfl

end Backups
